import Mathlib

/-!
Verification of the annotated-docs library.

The library (src/annotated_docs/json_schema.py, src/annotated_docs/func_call.py)
derives a JSON-schema document from a callable's signature and, inversely,
validates a JSON object and invokes the callable with the validated values.

Shallow embedding:
* `Json` models JSON values.  JSON numbers are modelled as integers (no claim
  under verification depends on fractional numeric values); object entries are
  association lists with the key-ordering and key-uniqueness discipline of
  Python dicts (`setKey` replaces in place, appends fresh keys at the end).
* `TypeDescriptor` models the declared type of a parameter or return value,
  following the data model of the specification (Primitive / List / Mapping /
  Union / Literal / Annotated / Structured).  `Literal` carries string values,
  the common case singled out by the specification.
* `typeMapper` models the type-descriptor → schema-fragment mapping.  In the
  source this mapping is delegated to the external pydantic library (together
  with the title-stripping `GenerateJsonSchemaNoTitle` subclass); pydantic's
  code is not part of this repository, so the mapper is modelled from the
  specification's Type Mapper rules (§4.1) and pinned to the observable
  behaviour recorded by the repository's own tests
  (tests/annotated_docs_test/json_schema_test.py): `anyOf` unions, string
  `enum` literals, `$defs`-shared structured types referenced by `$ref`,
  an `allOf` wrapper when a description is attached to a bare `$ref`
  fragment, and no auto-generated `title` keys anywhere.
* The repository's own functions are translated directly:
  `get_parameter_model`, `get_parameters_schema`, `get_returns_model`,
  `get_returns_schema`, `as_json_schema`, `call` (json_schema.py) and
  `call_with_json` (func_call.py).  Python exceptions become an `Except`
  over `SchemaError`.
* `pyCleandoc`/`pyStrip` model `inspect.cleandoc` and `str.strip` (ASCII
  whitespace; docstrings with non-ASCII whitespace are out of scope).
-/

namespace AnnotatedDocs

/-- JSON values.  Numbers are modelled as integers; objects are ordered
association lists mirroring Python dict semantics. -/
inductive Json where
  | null
  | bool (b : Bool)
  | int (n : Int)
  | str (s : String)
  | arr (items : List Json)
  | obj (entries : List (String × Json))

/-- The primitive kinds of §4.1 rule 7. -/
inductive PrimKind where
  | stringKind
  | integerKind
  | numberKind
  | booleanKind
  | nullKind

/-- One metadata entry of an `Annotated` type. `fieldDesc` is what the
library's `doc` helper produces (`pydantic.Field(description=...)`);
`plain` is a bare string entry; `other` is any non-string-like entry. -/
inductive JMeta where
  | fieldDesc (s : String)
  | plain (s : String)
  | other

/-- Type descriptors, following the specification's data model (§3).
`Optional` is a `Union` containing the `null` primitive; `Structured`
fields carry a name, a descriptor and an optional default. -/
inductive TypeDescriptor where
  | prim (k : PrimKind)
  | listTy
  | mappingTy
  | union (members : List TypeDescriptor)
  | literal (values : List String)
  | annotated (inner : TypeDescriptor) (metadata : List JMeta)
  | structured (sname : String) (fields : List (String × TypeDescriptor × Option Json))

mutual

/-- Boolean equality of JSON values (used only to drop exact duplicate union
members, §4.1 rule 3). -/
def jsonBeq : Json → Json → Bool
  | .null, .null => true
  | .bool a, .bool b => a == b
  | .int a, .int b => a == b
  | .str a, .str b => a == b
  | .arr xs, .arr ys => jsonListBeq xs ys
  | .obj a, .obj b => jsonEntriesBeq a b
  | _, _ => false

/-- Pointwise `jsonBeq` on lists. -/
def jsonListBeq : List Json → List Json → Bool
  | [], [] => true
  | x :: xs, y :: ys => jsonBeq x y && jsonListBeq xs ys
  | _, _ => false

/-- Pointwise `jsonBeq` on object entries. -/
def jsonEntriesBeq : List (String × Json) → List (String × Json) → Bool
  | [], [] => true
  | (k1, v1) :: xs, (k2, v2) :: ys => k1 == k2 && jsonBeq v1 v2 && jsonEntriesBeq xs ys
  | _, _ => false

end

/-- First value bound to a key in an association list (Python `d[k]`). -/
def lookupKey : List (String × Json) → String → Option Json
  | [], _ => none
  | (k, v) :: rest, key => if k = key then some v else lookupKey rest key

/-- Python `d[k] = v`: replace in place if present, else append. -/
def setKey : List (String × Json) → String → Json → List (String × Json)
  | [], key, val => [(key, val)]
  | (k, v) :: rest, key, val =>
    if k = key then (k, val) :: rest else (k, v) :: setKey rest key val

/-- Python `del d[k]` (and a no-op when the key is absent). -/
def eraseKey (l : List (String × Json)) (key : String) : List (String × Json) :=
  l.filter (fun e => e.1 ≠ key)

/-- Python `a |= b`: fold the entries of `b` into `a`, `b` winning on clashes. -/
def mergeInto (a b : List (String × Json)) : List (String × Json) :=
  b.foldl (fun acc e => setKey acc e.1 e.2) a

/-- Key lookup on a JSON object (`none` on other JSON values). -/
def Json.getKey? : Json → String → Option Json
  | .obj es, key => lookupKey es key
  | _, _ => none

/-- Python `k in d`. -/
def Json.hasKey (j : Json) (key : String) : Bool := (j.getKey? key).isSome

/-- Delete a top-level key of a JSON object. -/
def Json.eraseTop : Json → String → Json
  | .obj es, key => .obj (eraseKey es key)
  | j, _ => j

/-- Set a top-level key of a JSON object. -/
def Json.setTop : Json → String → Json → Json
  | .obj es, key, v => .obj (setKey es key v)
  | j, _, _ => j

/-- Python `a |= b` on JSON objects. -/
def mergeJson : Json → Json → Json
  | .obj a, .obj b => .obj (mergeInto a b)
  | a, _ => a

/-- Name of the type on JSON Schema level, §4.1 rule 7. -/
def primName : PrimKind → String
  | .stringKind => "string"
  | .integerKind => "integer"
  | .numberKind => "number"
  | .booleanKind => "boolean"
  | .nullKind => "null"

/-- The description string carried by a string-like metadata entry. -/
def stringLike : JMeta → Option String
  | .fieldDesc s => some s
  | .plain s => some s
  | .other => none

/-- `doc` from json_schema.py: annotate a variable with a description
(`pydantic.Field(description=description)`). -/
def doc (description : String) : JMeta := .fieldDesc description

/-- Reference path of a shared structured definition. -/
def refPath (sname : String) : String := String.append ("#/$defs/") sname

/-- Attach the declared default value to a property fragment (no-op when the
parameter has no default). -/
def addDefault (frag : Json) : Option Json → Json
  | none => frag
  | some d => frag.setTop ("default") d

/-- Is the fragment a bare `$ref` reference?  (Attaching a description to such
a fragment wraps it in `allOf`, as pinned by the repository's tests.) -/
def pureRef : Json → Bool
  | .obj [(k, _)] => k == "$ref"
  | _ => false

/-- Keep the first definition emitted for each name (definition sharing,
§3 invariants). -/
def dedupDefsGo : List String → List (String × Json) → List (String × Json)
  | _, [] => []
  | seen, (k, v) :: rest =>
    if k ∈ seen then dedupDefsGo seen rest
    else (k, v) :: dedupDefsGo (k :: seen) rest

/-- Drop exact duplicate fragments, preserving first-seen order (§4.1 rule 3). -/
def dedupFragsGo : List Json → List Json → List Json
  | _, [] => []
  | seen, j :: rest =>
    if seen.any (fun s => jsonBeq s j) then dedupFragsGo seen rest
    else j :: dedupFragsGo (j :: seen) rest

mutual

/-- Modelled from the spec: the Type Mapper (§4.1).  The source delegates this
mapping to the external pydantic library (not part of this repository), via
`model_json_schema(schema_generator=GenerateJsonSchemaNoTitle)`; the rules here
follow §4.1 and the fragment shapes pinned by the repository's tests.  Returns
the fragment for the descriptor together with the shared definitions it emits
(hoisted into a top-level `$defs` block by `buildObjectSchema`).  No rule ever
emits a `title` key, modelling `GenerateJsonSchemaNoTitle`. -/
def typeMapper : TypeDescriptor → Json × List (String × Json)
  | .prim k => (.obj [("type", .str (primName k))], [])
  | .listTy => (.obj [("type", .str ("array"))], [])
  | .mappingTy => (.obj [("type", .str ("object"))], [])
  | .literal vs => (.obj [("type", .str ("string")), ("enum", .arr (vs.map Json.str))], [])
  | .union ms =>
    let rs := mapMembers ms
    (.obj [("anyOf", .arr (dedupFragsGo [] (rs.map Prod.fst)))],
     dedupDefsGo [] (rs.map Prod.snd).flatten)
  | .annotated inner md =>
    let r := typeMapper inner
    let descs := md.filterMap stringLike
    if descs.isEmpty then r
    else
      let d := String.intercalate ("; ") descs
      if pureRef r.1 then
        (.obj [("allOf", .arr [r.1]), ("description", .str d)], r.2)
      else (r.1.setTop ("description") (.str d), r.2)
  | .structured sname fields =>
    let rs := mapFields fields
    let props := rs.map (fun r => (r.1, addDefault r.2.1.1 r.2.2))
    let req := rs.filterMap (fun r =>
      if r.2.2.isNone then some (Json.str r.1) else none)
    let ownDef := Json.obj
      ([("properties", Json.obj props)] ++
       (if req.isEmpty then [] else [("required", Json.arr req)]) ++
       [("type", Json.str ("object"))])
    (.obj [("$ref", .str (refPath sname))],
     dedupDefsGo [] ((rs.map (fun r => r.2.1.2)).flatten ++ [(sname, ownDef)]))

/-- Map each union member through the Type Mapper, in declared order. -/
def mapMembers : List TypeDescriptor → List (Json × List (String × Json))
  | [] => []
  | t :: ts => typeMapper t :: mapMembers ts

/-- Map each structured field `(name, descriptor, default?)` through the
Type Mapper. -/
def mapFields : List (String × TypeDescriptor × Option Json) →
    List (String × (Json × List (String × Json)) × Option Json)
  | [] => []
  | (n, t, d) :: fs => (n, typeMapper t, d) :: mapFields fs

end

/-- One field of a dynamically created pydantic model: name, descriptor,
optional default (`pydantic.Field(...)`, i.e. required, is `none`). -/
abbrev FieldDef := String × TypeDescriptor × Option Json

/-- The `properties` entries of a model's schema: each field's fragment with
its declared default attached. -/
def fieldsProps (fields : List FieldDef) : List (String × Json) :=
  (mapFields fields).map (fun r => (r.1, addDefault r.2.1.1 r.2.2))

/-- The `required` list of a model's schema: the fields with no default. -/
def fieldsRequired (fields : List FieldDef) : List Json :=
  (mapFields fields).filterMap (fun r =>
    if r.2.2.isNone then some (Json.str r.1) else none)

/-- The shared `$defs` entries hoisted from the fields' fragments. -/
def fieldsDefs (fields : List FieldDef) : List (String × Json) :=
  dedupDefsGo [] ((mapFields fields).map (fun r => r.2.1.2)).flatten

/-- Modelled from the spec: `model_json_schema(schema_generator =
GenerateJsonSchemaNoTitle, mode="validation")` on a model created by
`pydantic.create_model(...)` — pydantic is external to the repository.  Emits
the object schema of §4.2: `properties` always, `required` only when
non-empty, shared `$defs` only when non-empty, and the `type: "object"`
marker; never a `title`. -/
def buildObjectSchema (fields : List FieldDef) : Json :=
  Json.obj
    ((if (fieldsDefs fields).isEmpty then []
      else [("$defs", Json.obj (fieldsDefs fields))]) ++
     [("properties", Json.obj (fieldsProps fields))] ++
     (if (fieldsRequired fields).isEmpty then []
      else [("required", Json.arr (fieldsRequired fields))]) ++
     [("type", Json.str ("object"))])

/-- One parameter of a callable as the reflection collaborator yields it:
a name, an optional type descriptor (absent when unannotated), and an
optional default value. -/
structure ParameterSpec where
  name : String
  type? : Option TypeDescriptor
  default? : Option Json

/-- A callable: identifier, optional docstring, parameters in declaration
order, optional return descriptor, and the callable's own behaviour as a
function from keyword arguments to its return value. -/
structure Func where
  name : String
  doc? : Option String
  params : List ParameterSpec
  returnType? : Option TypeDescriptor
  impl : List (String × Json) → Json

/-- The error taxonomy (§7): the ValueError raised for an unannotated
parameter (`MissingAnnotationError`, carrying the callable's and the
parameter's names), the ValueError raised for a missing return annotation
(`MissingReturnAnnotationError`, carrying the callable's name), and
pydantic's ValidationError carrying every violated field. -/
inductive SchemaError where
  | missingAnn (funcName paramName : String)
  | missingReturnAnn (funcName : String)
  | validation (errors : List (String × String))

/-- `RETURNS_KEY` from json_schema.py. -/
def RETURNS_KEY : String := "returns"

/-- The loop body of `get_parameter_model`: walk the signature's parameters in
order, fail on the first unannotated one, otherwise collect
`(name, annotation, default?)` field definitions. -/
def paramFields (funcName : String) : List ParameterSpec → Except SchemaError (List FieldDef)
  | [] => .ok []
  | p :: ps =>
    match p.type? with
    | none => .error (.missingAnn funcName p.name)
    | some t =>
      match paramFields funcName ps with
      | .error e => .error e
      | .ok rest => .ok ((p.name, t, p.default?) :: rest)

/-- `get_parameter_model` from json_schema.py: the field definitions of the
pydantic model created for the callable's parameters. -/
def get_parameter_model (f : Func) : Except SchemaError (List FieldDef) :=
  paramFields f.name f.params

/-- `get_parameters_schema` from json_schema.py: the parameter model's JSON
schema. -/
def get_parameters_schema (f : Func) : Except SchemaError Json :=
  (get_parameter_model f).map buildObjectSchema

/-- `get_returns_model` from json_schema.py: fails when the return annotation
is absent, otherwise a model with the single required synthetic field
`RETURNS_KEY` holding the return descriptor. -/
def get_returns_model (f : Func) : Except SchemaError (List FieldDef) :=
  match f.returnType? with
  | none => .error (.missingReturnAnn f.name)
  | some rt => .ok [(RETURNS_KEY, rt, none)]

/-- The unwrapping steps of `get_returns_schema`: pop `properties`, merge the
synthetic property's fragment over the remaining wrapper (`|=`), delete
`required` if present, and delete `type` when it equals `"object"`. -/
def unwrapReturns (schema : Json) : Json :=
  let properties := (schema.getKey? ("properties")).getD (.obj [])
  let return_schema := schema.eraseTop ("properties")
  let frag := (properties.getKey? RETURNS_KEY).getD .null
  let merged := mergeJson return_schema frag
  let merged :=
    if merged.hasKey ("required") then merged.eraseTop ("required") else merged
  match merged.getKey? ("type") with
  | some (Json.str s) => if s = "object" then merged.eraseTop ("type") else merged
  | _ => merged

/-- `get_returns_schema` from json_schema.py: generate the returns model's
schema and unwrap it. -/
def get_returns_schema (f : Func) : Except SchemaError Json :=
  (get_returns_model f).map (fun fields => unwrapReturns (buildObjectSchema fields))

/-- Is the character ASCII whitespace (Python `str.strip` / `str.lstrip`
default set, ASCII fragment)? -/
def pyIsSpace (c : Char) : Bool :=
  c == ' ' || c == '\t' || c == '\n' || c == '\r' || c == '\x0b' || c == '\x0c'

/-- Python `str.expandtabs()` (tab size 8), on the character list; the column
resets after a newline or carriage return. -/
def expandTabsGo : List Char → Nat → List Char
  | [], _ => []
  | c :: cs, col =>
    if c = '\t' then
      let pad := 8 - col % 8
      List.replicate pad ' ' ++ expandTabsGo cs (col + pad)
    else if c = '\n' ∨ c = '\r' then c :: expandTabsGo cs 0
    else c :: expandTabsGo cs (col + 1)

/-- Python `s.split(chr(10))` on the character list. -/
def splitLinesGo : List Char → List Char → List (List Char)
  | [], cur => [cur.reverse]
  | c :: cs, cur =>
    if c = '\n' then cur.reverse :: splitLinesGo cs []
    else splitLinesGo cs (c :: cur)

/-- The margin computation of `inspect.cleandoc`: the least indentation of a
non-blank line (`none` when every line is blank). -/
def marginOf (lines : List (List Char)) : Option Nat :=
  lines.foldl (fun acc l =>
    let stripped := l.dropWhile pyIsSpace
    if stripped.isEmpty then acc
    else
      let ind := l.length - stripped.length
      match acc with
      | none => some ind
      | some m => some (min m ind)) none

/-- Join lines back with newlines. -/
def joinLines : List (List Char) → List Char
  | [] => []
  | [l] => l
  | l :: rest => l ++ '\n' :: joinLines rest

/-- `inspect.cleandoc` (Python standard library, external to the repository):
expand tabs, strip the first line's leading whitespace, remove the common
margin of the remaining lines, and drop leading/trailing blank lines. -/
def pyCleandoc (docstr : String) : String :=
  let lines := splitLinesGo (expandTabsGo docstr.data 0) []
  let margin := marginOf lines.tail
  let lines :=
    match lines with
    | [] => []
    | l0 :: rest =>
      let rest :=
        match margin with
        | none => rest
        | some m => rest.map (fun (l : List Char) => l.drop m)
      l0.dropWhile pyIsSpace :: rest
  let lines := (lines.reverse.dropWhile List.isEmpty).reverse
  let lines := lines.dropWhile List.isEmpty
  String.mk (joinLines lines)

/-- Python `str.strip()` (ASCII whitespace). -/
def pyStrip (s : String) : String :=
  String.mk (((s.data.dropWhile pyIsSpace).reverse.dropWhile pyIsSpace).reverse)

/-- The docstring handling of `as_json_schema`: `if func.__doc__:` then
`description = inspect.cleandoc(func.__doc__).strip()`, kept only `if
description:`. -/
def docDescription : Option String → Option String
  | none => none
  | some d =>
    if d = "" then none
    else
      let c := pyStrip (pyCleandoc d)
      if c = "" then none else some c

/-- `as_json_schema` from json_schema.py: assemble name, optional description,
parameters schema and — only when requested — the returns schema. -/
def as_json_schema (f : Func) (include_returns : Bool) : Except SchemaError Json := do
  let parameters_schema ← get_parameters_schema f
  let base := [("name", Json.str f.name)]
  let base :=
    match docDescription f.doc? with
    | some c => base ++ [("description", Json.str c)]
    | none => base
  let base := base ++ [("parameters", parameters_schema)]
  if include_returns then
    let r ← get_returns_schema f
    return Json.obj (base ++ [(RETURNS_KEY, r)])
  else
    return Json.obj base

mutual

/-- Modelled from the spec: pydantic validation/coercion of one JSON value
against one descriptor (`model_validate` field handling — pydantic is external
to the repository).  Integers are accepted for `number`; union members are
tried in declared order; structured values are validated field by field. -/
def coerce : TypeDescriptor → Json → Except String Json
  | .prim .stringKind, .str s => .ok (.str s)
  | .prim .integerKind, .int n => .ok (.int n)
  | .prim .numberKind, .int n => .ok (.int n)
  | .prim .booleanKind, .bool b => .ok (.bool b)
  | .prim .nullKind, .null => .ok .null
  | .listTy, .arr xs => .ok (.arr xs)
  | .mappingTy, .obj es => .ok (.obj es)
  | .literal vs, .str s =>
    if s ∈ vs then .ok (.str s) else .error ("unexpected literal value")
  | .union ms, v => coerceUnion ms v
  | .annotated inner _, v => coerce inner v
  | .structured _ fields, .obj es =>
    match coerceFields fields es with
    | .ok out => .ok (.obj out)
    | .error e => .error e
  | _, _ => .error ("input should match the declared type")

/-- Try the union members in declared order; the first success wins. -/
def coerceUnion : List TypeDescriptor → Json → Except String Json
  | [], _ => .error ("no union member matched")
  | t :: ts, v =>
    match coerce t v with
    | .ok v' => .ok v'
    | .error _ => coerceUnion ts v

/-- Validate the declared fields of a structured value against the supplied
object entries: a present entry is coerced, an absent one falls back to the
declared default, and a missing required field is an error. -/
def coerceFields : List (String × TypeDescriptor × Option Json) → List (String × Json) →
    Except String (List (String × Json))
  | [], _ => .ok []
  | (n, t, d) :: fs, es =>
    match lookupKey es n with
    | some v =>
      match coerce t v with
      | .ok v' =>
        match coerceFields fs es with
        | .ok rest => .ok ((n, v') :: rest)
        | .error e => .error e
      | .error e => .error e
    | none =>
      match d with
      | some dv =>
        match coerceFields fs es with
        | .ok rest => .ok ((n, dv) :: rest)
        | .error e => .error e
      | none => .error ("Field required")

end

/-- Validation of one model field against the incoming JSON object: a present
key is coerced against the field's descriptor, an absent one falls back to the
declared default, and a missing required field is a violation. -/
def validateField (json : List (String × Json)) (f : FieldDef) : Except String Json :=
  match lookupKey json f.1 with
  | some v => coerce f.2.1 v
  | none =>
    match f.2.2 with
    | some d => .ok d
    | none => .error ("Field required")

/-- Modelled from the spec: `model_validate(parameters_json)` on the parameter
model (pydantic is external to the repository).  A single pass collects every
violated field; on success it yields the validated value of every field, in
field order. -/
def validateParams (fields : List FieldDef) (json : List (String × Json)) :
    Except (List (String × String)) (List (String × Json)) :=
  let errs := fields.filterMap (fun f =>
    match validateField json f with
    | .error e => some (f.1, e)
    | .ok _ => none)
  if errs.isEmpty then
    .ok (fields.filterMap (fun f => (validateField json f).toOption.map (fun v => (f.1, v))))
  else .error errs

/-- `call` from json_schema.py: build the parameter model, validate/coerce the
JSON object against it, then call the function with the validated first-layer
values as keyword arguments. -/
def call (func : Func) (parameters_json : List (String × Json)) : Except SchemaError Json := do
  let parameter_model ← get_parameter_model func
  match validateParams parameter_model parameters_json with
  | .error es => .error (.validation es)
  | .ok parameters => return func.impl parameters

/-- `call_with_json` from func_call.py (same body as `call`). -/
def call_with_json (func : Func) (parameters_json : List (String × Json)) :
    Except SchemaError Json := do
  let parameter_model ← get_parameter_model func
  match validateParams parameter_model parameters_json with
  | .error es => .error (.validation es)
  | .ok parameters => return func.impl parameters

mutual

/-- No auto-generated `title` key anywhere in a generated schema fragment.
Two kinds of keys are exempt because they are user data, not generator
output: the value stored under a `default` key is the declared default
embedded verbatim (not descended into), and the keys of a `properties` or
`$defs` object are user-chosen field/model names (their values are generated
fragments and are descended into). -/
def titleFree : Json → Bool
  | .obj es => titleFreeEntries es
  | .arr xs => titleFreeList xs
  | _ => true

/-- `titleFree` on every element. -/
def titleFreeList : List Json → Bool
  | [] => true
  | j :: rest => titleFree j && titleFreeList rest

/-- `titleFree` on the entries of a generated object: no generated key is
`title`; a `default` value is skipped; a `properties` or `$defs` value is a
name-keyed map of fragments; every other value is itself a fragment. -/
def titleFreeEntries : List (String × Json) → Bool
  | [] => true
  | (k, v) :: rest =>
    (!(k == "title") &&
      (if k == "default" then true
       else if k == "properties" || k == "$defs" then
         (match v with
          | .obj es2 => titleFreeMapEntries es2
          | .arr xs => titleFreeList xs
          | _ => true)
       else titleFree v)) && titleFreeEntries rest

/-- `titleFree` on every value of a name-keyed map (the value of `properties`
or `$defs`): keys are user-chosen names, values are generated fragments. -/
def titleFreeMapEntries : List (String × Json) → Bool
  | [] => true
  | (_, v) :: rest => titleFree v && titleFreeMapEntries rest

end

/-- A name-keyed map (the value of `properties` or `$defs`). -/
def titleFreeMap : Json → Bool
  | .obj es => titleFreeMapEntries es
  | .arr xs => titleFreeList xs
  | _ => true

/-- The top-level `required` list of an object schema (empty when absent). -/
def requiredNames (s : Json) : List Json :=
  match s.getKey? ("required") with
  | some (.arr l) => l
  | _ => []

/-- The fragment emitted for one named property of an object schema. -/
def propertyOf (s : Json) (n : String) : Option Json :=
  match s.getKey? ("properties") with
  | some (.obj es) => lookupKey es n
  | _ => none

/-- The claim's wording of §4.1 rule 1, for comparison with `typeMapper`:
attach the joined description directly onto the inner type's fragment. -/
def specAttachDescription (frag : Json) (d : String) : Json :=
  frag.setTop ("description") (.str d)

/-! ### Association-list lemmas -/

theorem lookupKey_setKey (l : List (String × Json)) (k k' : String) (v : Json) :
    lookupKey (setKey l k v) k' = if k' = k then some v else lookupKey l k' := by
  induction l with
  | nil =>
    simp only [setKey, lookupKey]
    by_cases h : k = k'
    · subst h; simp
    · have h' : ¬(k' = k) := fun hh => h hh.symm
      simp [h, h']
  | cons e rest ih =>
    obtain ⟨k1, v1⟩ := e
    simp only [setKey]
    by_cases h1 : k1 = k
    · subst h1
      simp only [if_pos rfl, lookupKey]
      by_cases h2 : k1 = k'
      · subst h2; simp
      · have h2' : ¬(k' = k1) := fun hh => h2 hh.symm
        simp [h2, h2']
    · simp only [if_neg h1, lookupKey]
      by_cases h2 : k1 = k'
      · subst h2
        simp [h1]
      · simp [h2, ih]

theorem lookupKey_append (a b : List (String × Json)) (k : String) :
    lookupKey (a ++ b) k = (lookupKey a k).or (lookupKey b k) := by
  induction a with
  | nil => simp [lookupKey]
  | cons e rest ih =>
    obtain ⟨k1, v1⟩ := e
    by_cases h : k1 = k <;> simp [lookupKey, h, ih]

theorem lookupKey_eraseKey (l : List (String × Json)) (key k : String) :
    lookupKey (eraseKey l key) k = if k = key then none else lookupKey l k := by
  induction l with
  | nil => simp [eraseKey, lookupKey]
  | cons e rest ih =>
    obtain ⟨k1, v1⟩ := e
    by_cases h1 : k1 = key <;> by_cases h2 : k1 = k <;>
      simp_all [eraseKey, lookupKey, List.filter]

theorem lookupKey_eq_none (l : List (String × Json)) (k : String) :
    lookupKey l k = none ↔ ∀ v, (k, v) ∉ l := by
  induction l with
  | nil => simp [lookupKey]
  | cons e rest ih =>
    obtain ⟨k1, v1⟩ := e
    by_cases h : k1 = k
    · subst h
      simp only [lookupKey, if_pos rfl]
      constructor
      · intro hfalse
        exact absurd hfalse (by simp)
      · intro hall
        exact absurd (List.mem_cons_self _ _) (hall v1)
    · have h' : ¬(k = k1) := fun hh => h hh.symm
      simp [lookupKey, h, h', ih, Prod.ext_iff]

theorem lookupKey_eq_none_of_not_mem_keys (l : List (String × Json)) (k : String)
    (h : k ∉ l.map Prod.fst) : lookupKey l k = none :=
  (lookupKey_eq_none l k).mpr (fun _ hv => h (List.mem_map_of_mem Prod.fst hv))

theorem lookupKey_mem (l : List (String × Json)) (k : String) (v : Json)
    (h : lookupKey l k = some v) : (k, v) ∈ l := by
  induction l with
  | nil => simp [lookupKey] at h
  | cons e rest ih =>
    obtain ⟨k1, v1⟩ := e
    by_cases h1 : k1 = k
    · subst h1
      simp [lookupKey] at h
      simp [h]
    · simp [lookupKey, h1] at h
      exact List.mem_cons_of_mem _ (ih h)

theorem mem_setKey (l : List (String × Json)) (k : String) (v : Json) (e : String × Json)
    (h : e ∈ setKey l k v) : e ∈ l ∨ e = (k, v) := by
  induction l with
  | nil => simp [setKey] at h; simp [h]
  | cons e1 rest ih =>
    obtain ⟨k1, v1⟩ := e1
    by_cases h1 : k1 = k
    · subst h1
      simp [setKey] at h
      rcases h with h | h
      · right; simp [h]
      · left; simp [h]
    · simp [setKey, h1] at h
      rcases h with h | h
      · left; simp [h]
      · rcases ih h with h2 | h2
        · left; exact List.mem_cons_of_mem _ h2
        · right; exact h2

theorem keys_setKey (l : List (String × Json)) (k : String) (v : Json) :
    (setKey l k v).map Prod.fst =
      if k ∈ l.map Prod.fst then l.map Prod.fst else l.map Prod.fst ++ [k] := by
  induction l with
  | nil => simp [setKey]
  | cons e rest ih =>
    obtain ⟨k1, v1⟩ := e
    by_cases h1 : k1 = k
    · subst h1
      simp [setKey]
    · have h' : ¬(k = k1) := fun hh => h1 hh.symm
      by_cases h2 : k ∈ rest.map Prod.fst <;>
        simp [setKey, h1, h', h2, ih]

theorem nodupKeys_setKey (l : List (String × Json)) (k : String) (v : Json)
    (h : (l.map Prod.fst).Nodup) : ((setKey l k v).map Prod.fst).Nodup := by
  rw [keys_setKey]
  by_cases h1 : k ∈ l.map Prod.fst
  · simpa [h1] using h
  · simp [h1, List.nodup_append, h]

theorem lookupKey_mergeInto (a b : List (String × Json)) (k : String)
    (hb : (b.map Prod.fst).Nodup) :
    lookupKey (mergeInto a b) k = (lookupKey b k).or (lookupKey a k) := by
  induction b generalizing a with
  | nil => simp [mergeInto, lookupKey]
  | cons e rest ih =>
    obtain ⟨k1, v1⟩ := e
    rw [List.map_cons, List.nodup_cons] at hb
    have step : mergeInto a ((k1, v1) :: rest) = mergeInto (setKey a k1 v1) rest := by
      simp [mergeInto]
    rw [step, ih _ hb.2]
    by_cases h : k1 = k
    · subst h
      have hnone : lookupKey rest k1 = none :=
        lookupKey_eq_none_of_not_mem_keys rest k1 hb.1
      simp [lookupKey, hnone, lookupKey_setKey]
    · have h2 : ¬(k = k1) := fun h2 => h h2.symm
      simp [lookupKey, h, lookupKey_setKey, h2]

theorem mem_mergeInto (a b : List (String × Json)) (e : String × Json)
    (h : e ∈ mergeInto a b) : e ∈ a ∨ e ∈ b := by
  induction b generalizing a with
  | nil => left; simpa [mergeInto] using h
  | cons e1 rest ih =>
    obtain ⟨k1, v1⟩ := e1
    have step : mergeInto a ((k1, v1) :: rest) = mergeInto (setKey a k1 v1) rest := by
      simp [mergeInto]
    rw [step] at h
    rcases ih _ h with h2 | h2
    · rcases mem_setKey _ _ _ _ h2 with h3 | h3
      · left; exact h3
      · right; simp [h3]
    · right; exact List.mem_cons_of_mem _ h2

/-! ### The fragment lists emitted for a model's fields -/

theorem mapFields_eq_map (fs : List (String × TypeDescriptor × Option Json)) :
    mapFields fs = fs.map (fun f => (f.1, typeMapper f.2.1, f.2.2)) := by
  induction fs with
  | nil => simp [mapFields]
  | cons f rest ih =>
    obtain ⟨n, t, d⟩ := f
    simp [mapFields, ih]

theorem mapMembers_eq_map (ms : List TypeDescriptor) :
    mapMembers ms = ms.map typeMapper := by
  induction ms with
  | nil => simp [mapMembers]
  | cons t rest ih => simp [mapMembers, ih]

/-! ### Top-level keys of a generated object schema -/

theorem build_getKey_properties (fields : List FieldDef) :
    (buildObjectSchema fields).getKey? ("properties") =
      some (.obj (fieldsProps fields)) := by
  simp only [buildObjectSchema, Json.getKey?]
  split <;> split <;> simp [lookupKey]

theorem build_getKey_required (fields : List FieldDef) :
    (buildObjectSchema fields).getKey? ("required") =
      if (fieldsRequired fields).isEmpty then none
      else some (.arr (fieldsRequired fields)) := by
  simp only [buildObjectSchema, Json.getKey?]
  split <;> split <;> simp [lookupKey]

theorem build_getKey_defs (fields : List FieldDef) :
    (buildObjectSchema fields).getKey? ("$defs") =
      if (fieldsDefs fields).isEmpty then none
      else some (.obj (fieldsDefs fields)) := by
  simp only [buildObjectSchema, Json.getKey?]
  split <;> split <;> simp [lookupKey]

theorem build_getKey_type (fields : List FieldDef) :
    (buildObjectSchema fields).getKey? ("type") = some (.str ("object")) := by
  simp only [buildObjectSchema, Json.getKey?]
  split <;> split <;> simp [lookupKey]

/-! ### Shape of the fragments emitted by the Type Mapper -/

theorem typeMapper_frag_shape :
    ∀ t : TypeDescriptor, ∃ es, (typeMapper t).1 = Json.obj es ∧
      (es.map Prod.fst).Nodup ∧ lookupKey es ("$defs") = none := by
  refine typeMapper.induct
    (fun t => ∃ es, (typeMapper t).1 = Json.obj es ∧
      (es.map Prod.fst).Nodup ∧ lookupKey es ("$defs") = none)
    (fun _ => True) (fun _ => True)
    ?_ ?_ ?_ ?_ ?_ ?_ ?_ ?_ ?_ trivial (fun _ _ _ _ => trivial) trivial
    (fun _ _ _ _ _ _ => trivial)
  · intro k
    exact ⟨_, rfl, by simp, by simp [lookupKey]⟩
  · exact ⟨_, rfl, by simp, by simp [lookupKey]⟩
  · exact ⟨_, rfl, by simp, by simp [lookupKey]⟩
  · intro vs
    exact ⟨_, rfl, by simp, by simp [lookupKey]⟩
  · intro ms _
    exact ⟨_, rfl, by simp, by simp [lookupKey]⟩
  · intro inner md descs h ih
    have h' : (md.filterMap stringLike).isEmpty = true := h
    simpa [typeMapper, h'] using ih
  · intro inner md r descs h1 h2 ih
    have h1' : ¬(md.filterMap stringLike).isEmpty = true := h1
    have h2' : pureRef (typeMapper inner).1 = true := h2
    refine ⟨[("allOf", .arr [(typeMapper inner).1]),
      ("description", .str (String.intercalate ("; ") (md.filterMap stringLike)))],
      ?_, ?_, ?_⟩
    · simp [typeMapper, h1', h2']
    · simp
    · simp [lookupKey]
  · intro inner md r descs h1 h2 ih
    obtain ⟨es, he, hnd, hdefs⟩ := ih
    have h1' : ¬(md.filterMap stringLike).isEmpty = true := h1
    have h2' : ¬pureRef (typeMapper inner).1 = true := h2
    have heq : typeMapper (.annotated inner md) =
        ((typeMapper inner).1.setTop ("description")
          (.str (String.intercalate ("; ") (md.filterMap stringLike))),
         (typeMapper inner).2) := by
      simp [typeMapper, h1', h2']
    refine ⟨setKey es ("description")
      (.str (String.intercalate ("; ") (md.filterMap stringLike))), ?_,
      nodupKeys_setKey _ _ _ hnd, ?_⟩
    · rw [heq]
      show (typeMapper inner).1.setTop _ _ = _
      rw [he]
      simp [Json.setTop]
    · rw [lookupKey_setKey]
      simp [hdefs]
  · intro sname fields _
    exact ⟨_, rfl, by simp, by simp [lookupKey]⟩

/-! ### Title-freeness -/

/-- Whether one generated object entry is admissible: the key is not `title`,
a `default` value is not descended into, a `properties`/`$defs` value is a
name-keyed map, any other value is a fragment. -/
def entryOk (e : String × Json) : Bool :=
  !(e.1 == "title") &&
    (if e.1 == "default" then true
     else if e.1 == "properties" || e.1 == "$defs" then titleFreeMap e.2
     else titleFree e.2)

theorem titleFreeEntries_eq_all (l : List (String × Json)) :
    titleFreeEntries l = l.all entryOk := by
  induction l with
  | nil => rfl
  | cons e rest ih =>
    obtain ⟨k, v⟩ := e
    cases v <;> simp [titleFreeEntries, entryOk, titleFreeMap, ih]

theorem titleFreeList_eq_all (l : List Json) : titleFreeList l = l.all titleFree := by
  induction l with
  | nil => rfl
  | cons j rest ih => simp [titleFreeList, ih]

theorem titleFreeMapEntries_eq_all (l : List (String × Json)) :
    titleFreeMapEntries l = l.all (fun e => titleFree e.2) := by
  induction l with
  | nil => rfl
  | cons e rest ih =>
    obtain ⟨k, v⟩ := e
    simp [titleFreeMapEntries, ih]

theorem mem_dedupDefsGo (seen : List String) (l : List (String × Json)) (e : String × Json)
    (h : e ∈ dedupDefsGo seen l) : e ∈ l := by
  induction l generalizing seen with
  | nil => simp [dedupDefsGo] at h
  | cons e1 rest ih =>
    obtain ⟨k, v⟩ := e1
    simp only [dedupDefsGo] at h
    split at h
    · exact List.mem_cons_of_mem _ (ih _ h)
    · cases h with
      | head => exact List.mem_cons_self _ _
      | tail _ h2 => exact List.mem_cons_of_mem _ (ih _ h2)

theorem mem_dedupFragsGo (seen : List Json) (l : List Json) (j : Json)
    (h : j ∈ dedupFragsGo seen l) : j ∈ l := by
  induction l generalizing seen with
  | nil => simp [dedupFragsGo] at h
  | cons j1 rest ih =>
    simp only [dedupFragsGo] at h
    split at h
    · exact List.mem_cons_of_mem _ (ih _ h)
    · cases h with
      | head => exact List.mem_cons_self _ _
      | tail _ h2 => exact List.mem_cons_of_mem _ (ih _ h2)

theorem titleFree_setTop (j : Json) (k : String) (v : Json)
    (hj : titleFree j = true) (hk : entryOk (k, v) = true) :
    titleFree (j.setTop k v) = true := by
  cases j with
  | obj es =>
    simp only [Json.setTop, titleFree, titleFreeEntries_eq_all, List.all_eq_true] at *
    intro e he
    rcases mem_setKey _ _ _ _ he with h1 | h1
    · exact hj e h1
    · rw [h1]
      exact hk
  | null => simpa [Json.setTop] using hj
  | bool b => simpa [Json.setTop] using hj
  | int n => simpa [Json.setTop] using hj
  | str s => simpa [Json.setTop] using hj
  | arr xs => simpa [Json.setTop] using hj

theorem titleFree_addDefault (frag : Json) (d : Option Json)
    (h : titleFree frag = true) : titleFree (addDefault frag d) = true := by
  cases d with
  | none => exact h
  | some dv => exact titleFree_setTop frag _ dv h rfl

theorem titleFreeList_strs (vs : List String) : titleFreeList (vs.map Json.str) = true := by
  rw [titleFreeList_eq_all, List.all_eq_true]
  intro j hj
  obtain ⟨s, _, rfl⟩ := List.mem_map.mp hj
  rfl

theorem titleFreeMapEntries_props (rs : List (String × (Json × List (String × Json)) × Option Json))
    (h : ∀ r ∈ rs, titleFree r.2.1.1 = true) :
    titleFreeMapEntries (rs.map (fun r => (r.1, addDefault r.2.1.1 r.2.2))) = true := by
  rw [titleFreeMapEntries_eq_all, List.all_eq_true]
  intro e he
  obtain ⟨r, hr, rfl⟩ := List.mem_map.mp he
  exact titleFree_addDefault _ _ (h r hr)

theorem titleFreeList_req (rs : List (String × (Json × List (String × Json)) × Option Json)) :
    titleFreeList (rs.filterMap (fun r =>
      if r.2.2.isNone then some (Json.str r.1) else none)) = true := by
  rw [titleFreeList_eq_all, List.all_eq_true]
  intro j hj
  obtain ⟨r, hr, heq⟩ := List.mem_filterMap.mp hj
  split at heq
  · cases heq
    rfl
  · cases heq

theorem ownDef_titleFree (rs : List (String × (Json × List (String × Json)) × Option Json))
    (h : ∀ r ∈ rs, titleFree r.2.1.1 = true) :
    titleFree (Json.obj
      ([("properties", Json.obj (rs.map (fun r => (r.1, addDefault r.2.1.1 r.2.2))))] ++
       (if (rs.filterMap (fun r =>
            if r.2.2.isNone then some (Json.str r.1) else none)).isEmpty then []
        else [("required", Json.arr (rs.filterMap (fun r =>
            if r.2.2.isNone then some (Json.str r.1) else none)))]) ++
       [("type", Json.str ("object"))])) = true := by
  simp only [titleFree, titleFreeEntries_eq_all, List.all_eq_true]
  intro e he
  rcases List.mem_append.mp he with he1 | he1
  · rcases List.mem_append.mp he1 with he2 | he2
    · simp only [List.mem_singleton] at he2
      rw [he2]
      simp [entryOk, titleFreeMap, titleFreeMapEntries_props rs h]
    · split at he2
      · simp at he2
      · simp only [List.mem_singleton] at he2
        rw [he2]
        simp [entryOk, titleFree, titleFreeList_req rs]
  · simp only [List.mem_singleton] at he1
    rw [he1]
    rfl

theorem typeMapper_titleFree :
    ∀ t : TypeDescriptor,
      titleFree (typeMapper t).1 = true ∧ titleFreeMapEntries (typeMapper t).2 = true := by
  refine typeMapper.induct
    (fun t => titleFree (typeMapper t).1 = true ∧ titleFreeMapEntries (typeMapper t).2 = true)
    (fun fs => ∀ r ∈ mapFields fs,
      titleFree r.2.1.1 = true ∧ titleFreeMapEntries r.2.1.2 = true)
    (fun ms => ∀ r ∈ mapMembers ms,
      titleFree r.1 = true ∧ titleFreeMapEntries r.2 = true)
    ?_ ?_ ?_ ?_ ?_ ?_ ?_ ?_ ?_ ?_ ?_ ?_ ?_
  · intro k
    exact ⟨rfl, rfl⟩
  · exact ⟨rfl, rfl⟩
  · exact ⟨rfl, rfl⟩
  · intro vs
    constructor
    · simp only [typeMapper, titleFree, titleFreeEntries_eq_all, List.all_eq_true]
      intro e he
      rcases List.mem_cons.mp he with h1 | h1
      · rw [h1]
        rfl
      · simp only [List.mem_singleton] at h1
        rw [h1]
        simp [entryOk, titleFree, titleFreeList_strs vs]
    · rfl
  · intro ms ih
    constructor
    · simp only [typeMapper, titleFree, titleFreeEntries_eq_all, List.all_eq_true]
      intro e he
      simp only [List.mem_singleton] at he
      rw [he]
      have hl : titleFreeList (dedupFragsGo [] ((mapMembers ms).map Prod.fst)) = true := by
        rw [titleFreeList_eq_all, List.all_eq_true]
        intro j hj
        obtain ⟨r, hr, rfl⟩ := List.mem_map.mp (mem_dedupFragsGo _ _ _ hj)
        exact (ih r hr).1
      simp [entryOk, titleFree, hl]
    · simp only [typeMapper, titleFreeMapEntries_eq_all, List.all_eq_true]
      intro e he
      have he2 := mem_dedupDefsGo _ _ _ he
      obtain ⟨part, hpart, hmem⟩ := List.mem_flatten.mp he2
      obtain ⟨r, hr, rfl⟩ := List.mem_map.mp hpart
      have h3 := (ih r hr).2
      rw [titleFreeMapEntries_eq_all, List.all_eq_true] at h3
      exact h3 e hmem
  · intro inner md descs h ih
    have h' : (md.filterMap stringLike).isEmpty = true := h
    have heq : typeMapper (.annotated inner md) = typeMapper inner := by
      simp [typeMapper, h']
    rw [heq]
    exact ih
  · intro inner md r descs h1 h2 ih
    have h1' : ¬(md.filterMap stringLike).isEmpty = true := h1
    have h2' : pureRef (typeMapper inner).1 = true := h2
    have heq : typeMapper (.annotated inner md) =
        (.obj [("allOf", .arr [(typeMapper inner).1]),
          ("description", .str (String.intercalate ("; ") (md.filterMap stringLike)))],
         (typeMapper inner).2) := by
      simp [typeMapper, h1', h2']
    rw [heq]
    constructor
    · simp only [titleFree, titleFreeEntries_eq_all, List.all_eq_true]
      intro e he
      rcases List.mem_cons.mp he with h3 | h3
      · rw [h3]
        have hl : titleFreeList [(typeMapper inner).1] = true := by
          simp [titleFreeList, ih.1]
        simp [entryOk, titleFree, hl]
      · simp only [List.mem_singleton] at h3
        rw [h3]
        rfl
    · exact ih.2
  · intro inner md r descs h1 h2 ih
    have h1' : ¬(md.filterMap stringLike).isEmpty = true := h1
    have h2' : ¬pureRef (typeMapper inner).1 = true := h2
    have heq : typeMapper (.annotated inner md) =
        ((typeMapper inner).1.setTop ("description")
          (.str (String.intercalate ("; ") (md.filterMap stringLike))),
         (typeMapper inner).2) := by
      simp [typeMapper, h1', h2']
    rw [heq]
    exact ⟨titleFree_setTop _ _ _ ih.1 rfl, ih.2⟩
  · intro sname fields ih
    constructor
    · exact rfl
    · simp only [typeMapper, titleFreeMapEntries_eq_all, List.all_eq_true]
      intro e he
      have he2 := mem_dedupDefsGo _ _ _ he
      rcases List.mem_append.mp he2 with hflat | hown
      · obtain ⟨part, hpart, hmem⟩ := List.mem_flatten.mp hflat
        obtain ⟨r, hr, rfl⟩ := List.mem_map.mp hpart
        have h3 := (ih r hr).2
        rw [titleFreeMapEntries_eq_all, List.all_eq_true] at h3
        exact h3 e hmem
      · simp only [List.mem_singleton] at hown
        rw [hown]
        exact ownDef_titleFree (mapFields fields) (fun r hr => (ih r hr).1)
  · intro r hr
    simp [mapMembers] at hr
  · intro t ts ih1 ih2 r hr
    rcases List.mem_cons.mp hr with h | h
    · rw [h]
      exact ih1
    · exact ih2 r h
  · intro r hr
    simp [mapFields] at hr
  · intro n t d fs ih1 ih2 r hr
    rcases List.mem_cons.mp hr with h | h
    · rw [h]
      exact ih1
    · exact ih2 r h

theorem fieldFrags_titleFree (fields : List FieldDef) :
    ∀ r ∈ mapFields fields,
      titleFree r.2.1.1 = true ∧ titleFreeMapEntries r.2.1.2 = true := by
  rw [mapFields_eq_map]
  intro r hr
  obtain ⟨f, _, rfl⟩ := List.mem_map.mp hr
  exact typeMapper_titleFree f.2.1

theorem fieldsDefs_titleFree (fields : List FieldDef) :
    titleFreeMapEntries (fieldsDefs fields) = true := by
  rw [titleFreeMapEntries_eq_all, List.all_eq_true]
  intro e he
  have he2 := mem_dedupDefsGo _ _ _ he
  obtain ⟨part, hpart, hmem⟩ := List.mem_flatten.mp he2
  obtain ⟨r, hr, rfl⟩ := List.mem_map.mp hpart
  have h3 := (fieldFrags_titleFree fields r hr).2
  rw [titleFreeMapEntries_eq_all, List.all_eq_true] at h3
  exact h3 e hmem

theorem buildObjectSchema_titleFree (fields : List FieldDef) :
    titleFree (buildObjectSchema fields) = true := by
  simp only [buildObjectSchema, titleFree, titleFreeEntries_eq_all, List.all_eq_true]
  intro e he
  simp only [List.mem_append, List.mem_singleton] at he
  rcases he with ((hd | hp) | hr) | ht
  · split at hd
    · simp at hd
    · simp only [List.mem_singleton] at hd
      rw [hd]
      show titleFreeMap (Json.obj (fieldsDefs fields)) = true
      simpa [titleFreeMap] using fieldsDefs_titleFree fields
  · rw [hp]
    show titleFreeMap (Json.obj (fieldsProps fields)) = true
    simp only [titleFreeMap, fieldsProps]
    exact titleFreeMapEntries_props _ (fun r hr => (fieldFrags_titleFree fields r hr).1)
  · split at hr
    · simp at hr
    · simp only [List.mem_singleton] at hr
      rw [hr]
      show titleFree (Json.arr (fieldsRequired fields)) = true
      simpa [titleFree, fieldsRequired] using titleFreeList_req (mapFields fields)
  · rw [ht]
    rfl

theorem titleFree_eraseTop (j : Json) (k : String)
    (h : titleFree j = true) : titleFree (j.eraseTop k) = true := by
  cases j with
  | obj es =>
    simp only [Json.eraseTop, titleFree, titleFreeEntries_eq_all, List.all_eq_true] at *
    intro e he
    exact h e (List.mem_of_mem_filter he)
  | null => exact h
  | bool b => exact h
  | int n => exact h
  | str s => exact h
  | arr xs => exact h

theorem titleFree_mergeJson (a b : Json)
    (ha : titleFree a = true) (hb : titleFree b = true) :
    titleFree (mergeJson a b) = true := by
  cases a with
  | obj aes =>
    cases b with
    | obj bes =>
      simp only [mergeJson, titleFree, titleFreeEntries_eq_all, List.all_eq_true] at *
      intro e he
      rcases mem_mergeInto _ _ _ he with h1 | h1
      · exact ha e h1
      · exact hb e h1
    | null => exact ha
    | bool x => exact ha
    | int x => exact ha
    | str x => exact ha
    | arr x => exact ha
  | null => simpa [mergeJson] using ha
  | bool x => simpa [mergeJson] using ha
  | int x => simpa [mergeJson] using ha
  | str x => simpa [mergeJson] using ha
  | arr x => simpa [mergeJson] using ha

theorem titleFreeMap_properties_of (schema : Json) (h : titleFree schema = true) :
    titleFreeMap ((schema.getKey? ("properties")).getD (.obj [])) = true := by
  cases schema with
  | obj es =>
    simp only [Json.getKey?]
    cases hl : lookupKey es ("properties") with
    | none => rfl
    | some v =>
      have hmem := lookupKey_mem _ _ _ hl
      simp only [titleFree, titleFreeEntries_eq_all, List.all_eq_true] at h
      have := h _ hmem
      exact this
  | null => rfl
  | bool b => rfl
  | int n => rfl
  | str s => rfl
  | arr xs => rfl

theorem titleFree_value_of_map (props : Json) (k : String)
    (h : titleFreeMap props = true) :
    titleFree ((props.getKey? k).getD .null) = true := by
  cases props with
  | obj es =>
    simp only [Json.getKey?]
    cases hl : lookupKey es k with
    | none => rfl
    | some v =>
      have hmem := lookupKey_mem _ _ _ hl
      simp only [titleFreeMap, titleFreeMapEntries_eq_all, List.all_eq_true] at h
      exact h _ hmem
  | null => rfl
  | bool b => rfl
  | int n => rfl
  | str s => rfl
  | arr xs => rfl

theorem titleFree_requiredStrip (m : Json) (hm : titleFree m = true) :
    titleFree (if m.hasKey ("required") then m.eraseTop ("required") else m) = true := by
  split
  · exact titleFree_eraseTop _ _ hm
  · exact hm

theorem titleFree_typeStrip (m : Json) (hm : titleFree m = true) :
    titleFree (match m.getKey? ("type") with
      | some (Json.str s) => if s = "object" then m.eraseTop ("type") else m
      | _ => m) = true := by
  split
  · split
    · exact titleFree_eraseTop _ _ hm
    · exact hm
  · exact hm

theorem titleFree_unwrapReturns (schema : Json) (h : titleFree schema = true) :
    titleFree (unwrapReturns schema) = true := by
  have hprops := titleFreeMap_properties_of schema h
  have hfrag := titleFree_value_of_map _ RETURNS_KEY hprops
  have hret : titleFree (schema.eraseTop ("properties")) = true :=
    titleFree_eraseTop _ _ h
  simp only [unwrapReturns]
  exact titleFree_typeStrip _ (titleFree_requiredStrip _ (titleFree_mergeJson _ _ hret hfrag))

/-! ### The parameter model -/

theorem paramFields_ok_shape (fn : String) (ps : List ParameterSpec) (fields : List FieldDef)
    (h : paramFields fn ps = .ok fields) :
    fields = ps.map (fun p => (p.name, p.type?.getD .listTy, p.default?)) := by
  induction ps generalizing fields with
  | nil =>
    simp only [paramFields] at h
    cases h
    rfl
  | cons p rest ih =>
    simp only [paramFields] at h
    cases hty : p.type? with
    | none =>
      rw [hty] at h
      cases h
    | some t =>
      rw [hty] at h
      cases hre : paramFields fn rest with
      | error e =>
        rw [hre] at h
        cases h
      | ok restf =>
        rw [hre] at h
        cases h
        simp [ih restf hre, hty]

theorem paramFields_ok_name_irrel (fn fn' : String) (ps : List ParameterSpec)
    (fields : List FieldDef) (h : paramFields fn ps = .ok fields) :
    paramFields fn' ps = .ok fields := by
  induction ps generalizing fields with
  | nil => simpa [paramFields] using h
  | cons p rest ih =>
    simp only [paramFields] at h ⊢
    cases hty : p.type? with
    | none =>
      rw [hty] at h
      cases h
    | some t =>
      rw [hty] at h
      cases hre : paramFields fn rest with
      | error e =>
        rw [hre] at h
        cases h
      | ok restf =>
        rw [hre] at h
        rw [ih restf hre]
        exact h

theorem paramFields_find_error (fn : String) (ps : List ParameterSpec) (p : ParameterSpec)
    (h : ps.find? (fun q => q.type?.isNone) = some p) :
    paramFields fn ps = .error (.missingAnn fn p.name) := by
  induction ps with
  | nil => simp [List.find?] at h
  | cons q rest ih =>
    rw [List.find?] at h
    by_cases hq : q.type?.isNone = true
    · rw [hq] at h
      cases h
      have hqt : p.type? = none := Option.isNone_iff_eq_none.mp hq
      simp [paramFields, hqt]
    · have hq' : q.type?.isNone = false := by
        cases hb : q.type?.isNone
        · rfl
        · exact absurd hb hq
      rw [hq'] at h
      cases hqt : q.type? with
      | none => simp [hqt] at hq'
      | some t =>
        simp only [paramFields, hqt]
        rw [ih h]

/-! ### The returns pipeline -/

theorem returnsWrapped_entries (rt : TypeDescriptor) :
    buildObjectSchema [(RETURNS_KEY, rt, none)] = Json.obj
      ((if (fieldsDefs [(RETURNS_KEY, rt, none)]).isEmpty then []
        else [("$defs", Json.obj (fieldsDefs [(RETURNS_KEY, rt, none)]))]) ++
       [("properties", Json.obj [(RETURNS_KEY, (typeMapper rt).1)]),
        ("required", Json.arr [Json.str RETURNS_KEY]),
        ("type", Json.str ("object"))]) := by
  simp [buildObjectSchema, fieldsProps, fieldsRequired, mapFields, addDefault]

theorem returns_pipeline_spec (rt : TypeDescriptor) (fes : List (String × Json))
    (hfe : (typeMapper rt).1 = Json.obj fes)
    (hfnd : (fes.map Prod.fst).Nodup)
    (hfdefs : lookupKey fes ("$defs") = none) :
    (unwrapReturns (buildObjectSchema [(RETURNS_KEY, rt, none)])).hasKey ("required")
        = false ∧
    (∀ v, (unwrapReturns (buildObjectSchema [(RETURNS_KEY, rt, none)])).getKey? ("type")
        = some v → v ≠ .str ("object")) ∧
    (unwrapReturns (buildObjectSchema [(RETURNS_KEY, rt, none)])).getKey? ("$defs")
        = (buildObjectSchema [(RETURNS_KEY, rt, none)]).getKey? ("$defs") ∧
    (∀ k v, lookupKey fes k = some v → k ≠ "required" → k ≠ "type" →
      (unwrapReturns (buildObjectSchema [(RETURNS_KEY, rt, none)])).getKey? k = some v) ∧
    (lookupKey fes ("type") = some (.str ("object")) →
      (unwrapReturns (buildObjectSchema [(RETURNS_KEY, rt, none)])).hasKey ("type")
        = false) := by
  have hES := returnsWrapped_entries rt
  have hpropskey : (buildObjectSchema [(RETURNS_KEY, rt, none)]).getKey? ("properties")
      = some (.obj [(RETURNS_KEY, (typeMapper rt).1)]) := by
    rw [build_getKey_properties]
    rfl
  -- the entries of the wrapper schema, and their lookups
  have hlES : ∀ k, Json.getKey? (buildObjectSchema [(RETURNS_KEY, rt, none)]) k =
      lookupKey ((if (fieldsDefs [(RETURNS_KEY, rt, none)]).isEmpty then []
        else [("$defs", Json.obj (fieldsDefs [(RETURNS_KEY, rt, none)]))]) ++
       [("properties", Json.obj [(RETURNS_KEY, (typeMapper rt).1)]),
        ("required", Json.arr [Json.str RETURNS_KEY]),
        ("type", Json.str ("object"))]) k := by
    intro k
    rw [hES]
    rfl
  -- unfold the unwrap pipeline over the wrapper schema
  rw [hES]
  simp only [unwrapReturns, Json.getKey?]
  rw [lookupKey_append]
  have hd1 : lookupKey (if (fieldsDefs [(RETURNS_KEY, rt, none)]).isEmpty then []
      else [("$defs", Json.obj (fieldsDefs [(RETURNS_KEY, rt, none)]))]) ("properties")
      = none := by
    split <;> simp [lookupKey]
  rw [hd1]
  simp only [Option.none_or]
  have hd2 : lookupKey
      [(("properties" : String), Json.obj [(RETURNS_KEY, (typeMapper rt).1)]),
       ("required", Json.arr [Json.str RETURNS_KEY]),
       ("type", Json.str ("object"))] ("properties")
      = some (.obj [(RETURNS_KEY, (typeMapper rt).1)]) := by
    simp [lookupKey]
  rw [hd2]
  simp only [Option.getD_some]
  have hd3 : lookupKey [(RETURNS_KEY, (typeMapper rt).1)] RETURNS_KEY
      = some (typeMapper rt).1 := by
    simp [lookupKey]
  rw [hd3]
  simp only [Option.getD_some, Json.eraseTop, mergeJson, hfe]
  generalize hE0eq : ((if (fieldsDefs [(RETURNS_KEY, rt, none)]).isEmpty = true then []
      else [("$defs", Json.obj (fieldsDefs [(RETURNS_KEY, rt, none)]))]) ++
    [("properties", Json.obj [(RETURNS_KEY, Json.obj fes)]),
     ("required", Json.arr [Json.str RETURNS_KEY]),
     ("type", Json.str ("object"))]) = E0
  have hE0req : lookupKey E0 ("required") = some (.arr [.str RETURNS_KEY]) := by
    rw [← hE0eq, lookupKey_append]
    split <;> simp [lookupKey]
  have hE0type : lookupKey E0 ("type") = some (.str ("object")) := by
    rw [← hE0eq, lookupKey_append]
    split <;> simp [lookupKey]
  have hE0defs : lookupKey E0 ("$defs") =
      if (fieldsDefs [(RETURNS_KEY, rt, none)]).isEmpty then none
      else some (.obj (fieldsDefs [(RETURNS_KEY, rt, none)])) := by
    rw [← hE0eq, lookupKey_append]
    split <;> simp [lookupKey]
  have herase : ∀ k, ¬(k = "properties") →
      lookupKey (eraseKey E0 ("properties")) k = lookupKey E0 k := by
    intro k hk
    rw [lookupKey_eraseKey]
    simp [hk]
  have hMk : ∀ k, lookupKey (mergeInto (eraseKey E0 ("properties")) fes) k =
      (lookupKey fes k).or (lookupKey (eraseKey E0 ("properties")) k) :=
    fun k => lookupKey_mergeInto _ _ k hfnd
  have hreq : lookupKey (mergeInto (eraseKey E0 ("properties")) fes) ("required") =
      (lookupKey fes ("required")).or (some (.arr [.str RETURNS_KEY])) := by
    rw [hMk, herase _ (by simp), hE0req]
  have hcond : (Json.obj (mergeInto (eraseKey E0 ("properties")) fes)).hasKey ("required")
      = true := by
    simp only [Json.hasKey, Json.getKey?, hreq]
    cases lookupKey fes ("required") <;> simp [Option.or]
  rw [if_pos hcond]
  have htype : lookupKey (eraseKey (mergeInto (eraseKey E0 ("properties")) fes) ("required"))
      ("type") = (lookupKey fes ("type")).or (some (.str ("object"))) := by
    rw [lookupKey_eraseKey]
    simp only [if_neg (by simp : ¬(("type" : String) = "required"))]
    rw [hMk, herase _ (by simp), hE0type]
  have hdefs2 : lookupKey (eraseKey (mergeInto (eraseKey E0 ("properties")) fes) ("required"))
      ("$defs") = lookupKey E0 ("$defs") := by
    rw [lookupKey_eraseKey]
    simp only [if_neg (by simp : ¬(("$defs" : String) = "required"))]
    rw [hMk, herase _ (by simp), hfdefs]
    simp [Option.or]
  have hreq2 : lookupKey (eraseKey (mergeInto (eraseKey E0 ("properties")) fes) ("required"))
      ("required") = none := by
    rw [lookupKey_eraseKey]
    simp
  have hkeep : ∀ k v, lookupKey fes k = some v → ¬(k = "required") →
      lookupKey (eraseKey (mergeInto (eraseKey E0 ("properties")) fes) ("required")) k
        = some v := by
    intro k v hv hk
    rw [lookupKey_eraseKey]
    simp only [if_neg hk]
    rw [hMk, hv]
    simp [Option.or]
  cases hft : lookupKey fes ("type") with
  | none =>
    have htype2 : lookupKey
        (eraseKey (mergeInto (eraseKey E0 ("properties")) fes) ("required")) ("type")
        = some (.str ("object")) := by
      rw [htype, hft]
      simp [Option.or]
    simp only [Json.hasKey, Json.getKey?, htype2, Json.eraseTop]
    refine ⟨?_, ?_, ?_, ?_, ?_⟩
    · simp [lookupKey_eraseKey]
    · intro v hv
      simp [lookupKey_eraseKey] at hv
    · simp [lookupKey_eraseKey, hMk, hfdefs, Option.or]
    · intro k v hv hk1 hk2
      simp [lookupKey_eraseKey, hk1, hk2, hMk, hv, Option.or]
    · intro _
      simp [lookupKey_eraseKey]
  | some v0 =>
    have htype2 : lookupKey
        (eraseKey (mergeInto (eraseKey E0 ("properties")) fes) ("required")) ("type")
        = some v0 := by
      rw [htype, hft]
      simp [Option.or]
    cases v0 with
    | str s =>
      by_cases hs : s = "object"
      · subst hs
        simp only [Json.hasKey, Json.getKey?, htype2, Json.eraseTop]
        refine ⟨?_, ?_, ?_, ?_, ?_⟩
        · simp [lookupKey_eraseKey]
        · intro v hv
          simp [lookupKey_eraseKey] at hv
        · simp [lookupKey_eraseKey, hMk, hfdefs, Option.or]
        · intro k v hv hk1 hk2
          simp [lookupKey_eraseKey, hk1, hk2, hMk, hv, Option.or]
        · intro _
          simp [lookupKey_eraseKey]
      · simp only [Json.hasKey, Json.getKey?, htype2, Json.eraseTop, if_neg hs]
        refine ⟨?_, ?_, ?_, ?_, ?_⟩
        · simp [lookupKey_eraseKey]
        · intro v hv
          cases hv
          simp [hs]
        · simp [lookupKey_eraseKey, hMk, hfdefs, Option.or]
        · intro k v hv hk1 _
          simp [lookupKey_eraseKey, hk1, hMk, hv, Option.or]
        · intro hobj
          cases hobj
          exact absurd rfl hs
    | null =>
      simp only [Json.hasKey, Json.getKey?, htype2]
      refine ⟨?_, ?_, ?_, ?_, ?_⟩
      · simp [lookupKey_eraseKey]
      · intro v hv
        cases hv
        simp
      · simp [lookupKey_eraseKey, hMk, hfdefs, Option.or]
      · intro k v hv hk1 _
        simp [lookupKey_eraseKey, hk1, hMk, hv, Option.or]
      · intro hobj
        cases hobj
    | bool b =>
      simp only [Json.hasKey, Json.getKey?, htype2]
      refine ⟨?_, ?_, ?_, ?_, ?_⟩
      · simp [lookupKey_eraseKey]
      · intro v hv
        cases hv
        simp
      · simp [lookupKey_eraseKey, hMk, hfdefs, Option.or]
      · intro k v hv hk1 _
        simp [lookupKey_eraseKey, hk1, hMk, hv, Option.or]
      · intro hobj
        cases hobj
    | int n =>
      simp only [Json.hasKey, Json.getKey?, htype2]
      refine ⟨?_, ?_, ?_, ?_, ?_⟩
      · simp [lookupKey_eraseKey]
      · intro v hv
        cases hv
        simp
      · simp [lookupKey_eraseKey, hMk, hfdefs, Option.or]
      · intro k v hv hk1 _
        simp [lookupKey_eraseKey, hk1, hMk, hv, Option.or]
      · intro hobj
        cases hobj
    | arr xs =>
      simp only [Json.hasKey, Json.getKey?, htype2]
      refine ⟨?_, ?_, ?_, ?_, ?_⟩
      · simp [lookupKey_eraseKey]
      · intro v hv
        cases hv
        simp
      · simp [lookupKey_eraseKey, hMk, hfdefs, Option.or]
      · intro k v hv hk1 _
        simp [lookupKey_eraseKey, hk1, hMk, hv, Option.or]
      · intro hobj
        cases hobj
    | obj oes =>
      simp only [Json.hasKey, Json.getKey?, htype2]
      refine ⟨?_, ?_, ?_, ?_, ?_⟩
      · simp [lookupKey_eraseKey]
      · intro v hv
        cases hv
        simp
      · simp [lookupKey_eraseKey, hMk, hfdefs, Option.or]
      · intro k v hv hk1 _
        simp [lookupKey_eraseKey, hk1, hMk, hv, Option.or]
      · intro hobj
        cases hobj

/-! ### Required list and properties of the parameters schema -/

theorem requiredNames_build (fields : List FieldDef) :
    requiredNames (buildObjectSchema fields) = fieldsRequired fields := by
  simp only [requiredNames, build_getKey_required]
  by_cases hemp : (fieldsRequired fields).isEmpty = true
  · rw [if_pos hemp, List.isEmpty_iff.mp hemp]
  · rw [if_neg hemp]

theorem propertyOf_build (fields : List FieldDef) (n : String) :
    propertyOf (buildObjectSchema fields) n = lookupKey (fieldsProps fields) n := by
  simp [propertyOf, build_getKey_properties]

theorem fieldsRequired_params (ps : List ParameterSpec) :
    fieldsRequired (ps.map (fun q => (q.name, q.type?.getD .listTy, q.default?))) =
      ps.filterMap (fun q =>
        if q.default?.isNone then some (Json.str q.name) else none) := by
  simp only [fieldsRequired, mapFields_eq_map, List.filterMap_map]
  rfl

theorem fieldsProps_params (ps : List ParameterSpec) :
    fieldsProps (ps.map (fun q => (q.name, q.type?.getD .listTy, q.default?))) =
      ps.map (fun q =>
        (q.name, addDefault (typeMapper (q.type?.getD .listTy)).1 q.default?)) := by
  simp only [fieldsProps, mapFields_eq_map, List.map_map]
  rfl

theorem nodup_name_inj (ps : List ParameterSpec)
    (hnd : (ps.map ParameterSpec.name).Nodup) (p q : ParameterSpec)
    (hp : p ∈ ps) (hq : q ∈ ps) (hname : q.name = p.name) : q = p := by
  induction ps with
  | nil => cases hp
  | cons a rest ih =>
    rw [List.map_cons, List.nodup_cons] at hnd
    rcases List.mem_cons.mp hp with rfl | hp2
    · rcases List.mem_cons.mp hq with rfl | hq2
      · rfl
      · exact absurd (hname ▸ List.mem_map_of_mem ParameterSpec.name hq2) hnd.1
    · rcases List.mem_cons.mp hq with rfl | hq2
      · exact absurd (hname ▸ List.mem_map_of_mem ParameterSpec.name hp2) hnd.1
      · exact ih hnd.2 hp2 hq2

theorem mem_required_iff (ps : List ParameterSpec)
    (hnd : (ps.map ParameterSpec.name).Nodup) (p : ParameterSpec) (hp : p ∈ ps) :
    Json.str p.name ∈ ps.filterMap (fun q =>
      if q.default?.isNone then some (Json.str q.name) else none) ↔
    p.default? = none := by
  constructor
  · intro hmem
    obtain ⟨q, hq, heq⟩ := List.mem_filterMap.mp hmem
    split at heq
    · rename_i hqd
      have hname : q.name = p.name := by
        simpa using heq
      have : q = p := nodup_name_inj ps hnd p q hp hq hname
      rw [← this]
      exact Option.isNone_iff_eq_none.mp hqd
    · cases heq
  · intro hdef
    apply List.mem_filterMap.mpr
    exact ⟨p, hp, by simp [hdef]⟩

theorem lookup_name_map (ps : List ParameterSpec) (g : ParameterSpec → Json)
    (hnd : (ps.map ParameterSpec.name).Nodup) (p : ParameterSpec) (hp : p ∈ ps) :
    lookupKey (ps.map (fun q => (q.name, g q))) p.name = some (g p) := by
  induction ps with
  | nil => cases hp
  | cons a rest ih =>
    rw [List.map_cons, List.nodup_cons] at hnd
    rcases List.mem_cons.mp hp with rfl | hp2
    · simp [lookupKey]
    · rw [List.map_cons]
      by_cases hqp : a.name = p.name
      · exact absurd (hqp ▸ List.mem_map_of_mem ParameterSpec.name hp2) hnd.1
      · simp only [lookupKey, if_neg hqp]
        exact ih hnd.2 hp2

/-! ### The assembled function schema -/

theorem docDescription_spec (o : Option String) :
    docDescription o = match o with
      | none => none
      | some d =>
        if pyStrip (pyCleandoc d) = "" then none
        else some (pyStrip (pyCleandoc d)) := by
  cases o with
  | none => rfl
  | some d =>
    by_cases hd : d = ""
    · subst hd
      have hc : pyStrip (pyCleandoc ("")) = "" := rfl
      simp [docDescription, hc]
    · simp [docDescription, hd]

theorem as_json_schema_ok_shape (f : Func) (inc : Bool) (s : Json)
    (h : as_json_schema f inc = .ok s) :
    ∃ ps : Json, get_parameters_schema f = .ok ps ∧
      ((inc = false ∧ s = Json.obj
          (([("name", Json.str f.name)] ++
            (match docDescription f.doc? with
             | some c => [("description", Json.str c)]
             | none => [])) ++ [("parameters", ps)])) ∨
       (inc = true ∧ ∃ r : Json, get_returns_schema f = .ok r ∧ s = Json.obj
          ((([("name", Json.str f.name)] ++
            (match docDescription f.doc? with
             | some c => [("description", Json.str c)]
             | none => [])) ++ [("parameters", ps)]) ++ [(RETURNS_KEY, r)]))) := by
  cases hps : get_parameters_schema f with
  | error e =>
    rw [as_json_schema] at h
    rw [hps] at h
    cases h
  | ok ps =>
    refine ⟨ps, rfl, ?_⟩
    rw [as_json_schema] at h
    rw [hps] at h
    cases hdoc : docDescription f.doc? with
    | none =>
      rw [hdoc] at h
      cases inc with
      | false =>
        simp only [Bool.false_eq_true, if_false, Except.bind, pure, Except.pure] at h
        cases h
        left
        exact ⟨rfl, rfl⟩
      | true =>
        cases hrs : get_returns_schema f with
        | error e2 =>
          simp only [if_true, Except.bind, hrs] at h
          cases h
        | ok r =>
          simp only [if_true, Except.bind, hrs, pure, Except.pure] at h
          cases h
          right
          exact ⟨rfl, r, rfl, rfl⟩
    | some c =>
      rw [hdoc] at h
      cases inc with
      | false =>
        simp only [Bool.false_eq_true, if_false, Except.bind, pure, Except.pure] at h
        cases h
        left
        exact ⟨rfl, rfl⟩
      | true =>
        cases hrs : get_returns_schema f with
        | error e2 =>
          simp only [if_true, Except.bind, hrs] at h
          cases h
        | ok r =>
          simp only [if_true, Except.bind, hrs, pure, Except.pure] at h
          cases h
          right
          exact ⟨rfl, r, rfl, rfl⟩

theorem as_json_schema_description_key (f : Func) (inc : Bool) (s : Json)
    (h : as_json_schema f inc = .ok s) :
    s.getKey? ("description") = (docDescription f.doc?).map Json.str := by
  obtain ⟨ps, _, hcase⟩ := as_json_schema_ok_shape f inc s h
  cases hdoc : docDescription f.doc? with
  | none =>
    rcases hcase with ⟨_, rfl⟩ | ⟨_, r, _, rfl⟩ <;>
      simp [Json.getKey?, hdoc, lookupKey, RETURNS_KEY]
  | some c =>
    rcases hcase with ⟨_, rfl⟩ | ⟨_, r, _, rfl⟩ <;>
      simp [Json.getKey?, hdoc, lookupKey]

theorem bind_ok_schema {α β : Type} (a : α) (f : α → Except SchemaError β) :
    Bind.bind (Except.ok a) f = f a := rfl

/-! ### Claims -/

/-- Claim C1: for every callable parameter, the parameter's name appears in the
top-level `required` list of the parameters schema iff the parameter has no
default value; and for every parameter with a default, the property fragment
carries a `default` key whose value equals the declared default. -/
theorem c1_required_iff_no_default (f : Func) (s : Json)
    (h : get_parameters_schema f = .ok s)
    (hnd : (f.params.map ParameterSpec.name).Nodup)
    (p : ParameterSpec) (hp : p ∈ f.params) :
    (Json.str p.name ∈ requiredNames s ↔ p.default? = none) ∧
    (∀ d, p.default? = some d →
      ∃ frag, propertyOf s p.name = some frag ∧
        frag.getKey? ("default") = some d) := by
  cases hm : get_parameter_model f with
  | error e =>
    simp only [get_parameters_schema, hm, Except.map] at h
    cases h
  | ok fields =>
    simp only [get_parameters_schema, hm, Except.map] at h
    cases h
    have hshape := paramFields_ok_shape f.name f.params fields hm
    subst hshape
    constructor
    · rw [requiredNames_build, fieldsRequired_params]
      exact mem_required_iff f.params hnd p hp
    · intro d hd
      rw [propertyOf_build, fieldsProps_params]
      refine ⟨addDefault (typeMapper (p.type?.getD .listTy)).1 p.default?, ?_, ?_⟩
      · exact lookup_name_map f.params
          (fun q => addDefault (typeMapper (q.type?.getD .listTy)).1 q.default?) hnd p hp
      · rw [hd]
        obtain ⟨es, he, _, _⟩ := typeMapper_frag_shape (p.type?.getD .listTy)
        simp only [addDefault, he, Json.setTop, Json.getKey?]
        rw [lookupKey_setKey]
        simp

/-- Sample callable for the C1 witness: one required and one defaulted
parameter. -/
def wf1 : Func := Func.mk ("f") none
  [ParameterSpec.mk ("a") (some (.prim .integerKind)) none,
   ParameterSpec.mk ("b") (some (.prim .integerKind)) (some (.int 5))]
  none (fun _ => Json.null)

/-- Witness for C1 at a concrete callable. -/
theorem c1_required_iff_no_default_witness :
    ∃ s, get_parameters_schema wf1 = Except.ok s ∧
      ((Json.str (ParameterSpec.mk ("b") (some (.prim .integerKind))
          (some (.int 5))).name ∈ requiredNames s ↔
        (ParameterSpec.mk ("b") (some (.prim .integerKind))
          (some (.int 5))).default? = none) ∧
       (∀ d, (ParameterSpec.mk ("b") (some (.prim .integerKind))
          (some (.int 5))).default? = some d →
        ∃ frag, propertyOf s (ParameterSpec.mk ("b") (some (.prim .integerKind))
          (some (.int 5))).name = some frag ∧
          frag.getKey? ("default") = some d)) :=
  ⟨_, rfl, c1_required_iff_no_default wf1 _ rfl (by decide)
    (ParameterSpec.mk ("b") (some (.prim .integerKind)) (some (.int 5)))
    (by simp [wf1])⟩

/-- Claim C2: the returns fragment is the synthetic property's fragment with
the wrapper artifacts removed: no top-level `required`, no leftover
`type: "object"` wrapper key, while the `$defs` block produced by the
wrapping step is preserved. -/
theorem c2_returns_unwrapped (f : Func) (rt : TypeDescriptor)
    (hr : f.returnType? = some rt) (r : Json)
    (h : get_returns_schema f = .ok r) :
    r.hasKey ("required") = false ∧
    (∀ v, r.getKey? ("type") = some v → v ≠ .str ("object")) ∧
    r.getKey? ("$defs") =
      (buildObjectSchema [(RETURNS_KEY, rt, none)]).getKey? ("$defs") ∧
    (∀ k v, (typeMapper rt).1.getKey? k = some v → k ≠ "required" → k ≠ "type" →
      r.getKey? k = some v) := by
  obtain ⟨fes, hfe, hfnd, hfdefs⟩ := typeMapper_frag_shape rt
  have hspec := returns_pipeline_spec rt fes hfe hfnd hfdefs
  have hr2 : r = unwrapReturns (buildObjectSchema [(RETURNS_KEY, rt, none)]) := by
    simp only [get_returns_schema, get_returns_model, hr, Except.map] at h
    cases h
    rfl
  subst hr2
  refine ⟨hspec.1, hspec.2.1, hspec.2.2.1, ?_⟩
  intro k v hv hk1 hk2
  apply hspec.2.2.2.1 k v _ hk1 hk2
  rw [hfe] at hv
  exact hv

/-- Sample callable for the C2 witness: a structured return type (so the
wrapping step emits a shared `$defs` block). -/
def wf2 : Func := Func.mk ("f") none []
  (some (.structured ("M") [(("b" : String), .prim .integerKind, none)]))
  (fun _ => Json.null)

/-- Witness for C2 at a concrete callable. -/
theorem c2_returns_unwrapped_witness :
    ∃ r, get_returns_schema wf2 = Except.ok r ∧
      (r.hasKey ("required") = false ∧
       (∀ v, r.getKey? ("type") = some v → v ≠ .str ("object")) ∧
       r.getKey? ("$defs") =
         (buildObjectSchema [(RETURNS_KEY,
           .structured ("M") [(("b" : String), .prim .integerKind, none)],
           none)]).getKey? ("$defs") ∧
       (∀ k v, (typeMapper (.structured ("M")
           [(("b" : String), .prim .integerKind, none)])).1.getKey? k = some v →
         k ≠ "required" → k ≠ "type" → r.getKey? k = some v)) :=
  ⟨_, rfl, c2_returns_unwrapped wf2 _ rfl _ rfl⟩

/-- Claim C3: a parameter without a type descriptor makes parameter-model
building fail with the missing-annotation error naming the callable and the
parameter; no schema is produced. -/
theorem c3_missing_param_ann (f : Func) (p : ParameterSpec)
    (h : f.params.find? (fun q => q.type?.isNone) = some p) :
    get_parameter_model f = .error (.missingAnn f.name p.name) ∧
    get_parameters_schema f = .error (.missingAnn f.name p.name) := by
  have h1 := paramFields_find_error f.name f.params p h
  refine ⟨h1, ?_⟩
  simp only [get_parameters_schema, get_parameter_model, h1, Except.map]

/-- Sample callable for the C3 witness: an unannotated parameter. -/
def wf3 : Func := Func.mk ("g") none
  [ParameterSpec.mk ("x") none none]
  none (fun _ => Json.null)

/-- Witness for C3 at a concrete callable. -/
theorem c3_missing_param_ann_witness :
    get_parameter_model wf3 =
      .error (.missingAnn ("g") ("x")) ∧
    get_parameters_schema wf3 =
      .error (.missingAnn ("g") ("x")) :=
  c3_missing_param_ann wf3 (ParameterSpec.mk ("x") none none) rfl

/-- Claim C4: no fragment emitted by schema generation — top-level parameters
and returns fragments, shared `$defs` definitions, fragments reached through
`$ref` — ever contains an auto-generated `title` key. -/
theorem c4_no_auto_title (f : Func) (inc : Bool) (s : Json)
    (h : as_json_schema f inc = .ok s) : titleFree s = true := by
  obtain ⟨ps, hps, hcase⟩ := as_json_schema_ok_shape f inc s h
  have hpstf : titleFree ps = true := by
    cases hm : get_parameter_model f with
    | error e =>
      simp only [get_parameters_schema, hm, Except.map] at hps
      cases hps
    | ok fields =>
      simp only [get_parameters_schema, hm, Except.map] at hps
      cases hps
      exact buildObjectSchema_titleFree fields
  have hrtf : ∀ r, get_returns_schema f = .ok r → titleFree r = true := by
    intro r hr
    cases hrm : f.returnType? with
    | none =>
      simp only [get_returns_schema, get_returns_model, hrm, Except.map] at hr
      cases hr
    | some rt =>
      simp only [get_returns_schema, get_returns_model, hrm, Except.map] at hr
      cases hr
      exact titleFree_unwrapReturns _ (buildObjectSchema_titleFree _)
  rcases hcase with ⟨_, rfl⟩ | ⟨_, r, hr, rfl⟩
  · cases hdoc : docDescription f.doc? <;>
      simp [titleFree, titleFreeEntries, hpstf]
  · cases hdoc : docDescription f.doc? <;>
      simp [titleFree, titleFreeEntries, hpstf, hrtf r hr, RETURNS_KEY]

/-- Sample callable for the C4 witness: docstring, defaulted and structured
parameters, annotated structured return. -/
def wf4 : Func := Func.mk ("f") (some ("Test function"))
  [ParameterSpec.mk ("a") (some (.prim .integerKind)) (some (.int 1)),
   ParameterSpec.mk ("m") (some (.structured ("M")
     [(("b" : String), .annotated (.prim .integerKind) [doc ("param b")], none)])) none]
  (some (.annotated (.structured ("M")
     [(("b" : String), .annotated (.prim .integerKind) [doc ("param b")], none)])
     [doc ("return test")]))
  (fun _ => Json.null)

/-- Witness for C4 at a concrete callable. -/
theorem c4_no_auto_title_witness :
    ∃ s, as_json_schema wf4 true = Except.ok s ∧ titleFree s = true :=
  ⟨_, rfl, c4_no_auto_title wf4 true _ rfl⟩

/-- Claim C5: the assembled function schema has a `description` key iff the
callable's documentation string is non-empty after cleaning; when present its
value is the cleaned documentation string. -/
theorem c5_description_iff (f : Func) (inc : Bool) (s : Json)
    (h : as_json_schema f inc = .ok s) :
    (s.hasKey ("description") = true ↔
      ∃ d, f.doc? = some d ∧ pyStrip (pyCleandoc d) ≠ "") ∧
    (∀ d, f.doc? = some d → pyStrip (pyCleandoc d) ≠ "" →
      s.getKey? ("description") = some (.str (pyStrip (pyCleandoc d)))) := by
  have hk := as_json_schema_description_key f inc s h
  rw [docDescription_spec] at hk
  constructor
  · rw [Json.hasKey, hk]
    cases hd : f.doc? with
    | none => simp
    | some d =>
      by_cases hc : pyStrip (pyCleandoc d) = ""
      · simp [hc]
      · simp [hc]
  · intro d hd hc
    rw [hk, hd]
    simp [hc]

/-- Sample callable for the C5 witness: an indented docstring that cleans to
a non-empty string. -/
def wf5 : Func := Func.mk ("f") (some ("\n    Test function\n    ")) []
  none (fun _ => Json.null)

/-- Witness for C5 at a concrete callable. -/
theorem c5_description_iff_witness :
    ∃ s, as_json_schema wf5 false = Except.ok s ∧
      (s.hasKey ("description") = true ↔
        ∃ d, wf5.doc? = some d ∧ pyStrip (pyCleandoc d) ≠ "") ∧
      (∀ d, wf5.doc? = some d → pyStrip (pyCleandoc d) ≠ "" →
        s.getKey? ("description") = some (.str (pyStrip (pyCleandoc d)))) :=
  ⟨_, rfl, c5_description_iff wf5 false _ rfl⟩

/-- Claim C6: for a JSON object accepted by the parameter model, `call` (and
`call_with_json`) validates/coerces it, invokes the callable with the
validated values as keyword arguments, and returns the callable's own return
value unchanged. -/
theorem c6_call_invokes (func : Func) (j : List (String × Json))
    (m : List FieldDef) (vs : List (String × Json))
    (h1 : get_parameter_model func = .ok m)
    (h2 : validateParams m j = .ok vs) :
    call func j = .ok (func.impl vs) ∧
    call_with_json func j = .ok (func.impl vs) := by
  constructor
  · simp only [call, h1, bind_ok_schema, h2]
    rfl
  · simp only [call_with_json, h1, bind_ok_schema, h2]
    rfl

/-- Sample callable for the C6 witness: `f(a: integer, b: number)`. -/
def wf6 : Func := Func.mk ("f") none
  [ParameterSpec.mk ("a") (some (.prim .integerKind)) none,
   ParameterSpec.mk ("b") (some (.prim .numberKind)) none]
  (some (.prim .stringKind)) (fun _ => Json.str ("hello"))

/-- Witness for C6 at a concrete callable and accepted input. -/
theorem c6_call_invokes_witness :
    get_parameter_model wf6 = Except.ok
        [(("a" : String), TypeDescriptor.prim .integerKind, (none : Option Json)),
         (("b" : String), TypeDescriptor.prim .numberKind, (none : Option Json))] ∧
    validateParams
        [(("a" : String), TypeDescriptor.prim .integerKind, (none : Option Json)),
         (("b" : String), TypeDescriptor.prim .numberKind, (none : Option Json))]
        [(("a" : String), Json.int 1), (("b" : String), Json.int 2)]
      = Except.ok [(("a" : String), Json.int 1), (("b" : String), Json.int 2)] ∧
    call wf6 [(("a" : String), Json.int 1), (("b" : String), Json.int 2)]
      = .ok (wf6.impl [(("a" : String), Json.int 1), (("b" : String), Json.int 2)]) ∧
    call_with_json wf6 [(("a" : String), Json.int 1), (("b" : String), Json.int 2)]
      = .ok (wf6.impl [(("a" : String), Json.int 1), (("b" : String), Json.int 2)]) :=
  ⟨rfl, rfl,
    (c6_call_invokes wf6
      [(("a" : String), Json.int 1), (("b" : String), Json.int 2)]
      [(("a" : String), TypeDescriptor.prim .integerKind, (none : Option Json)),
       (("b" : String), TypeDescriptor.prim .numberKind, (none : Option Json))]
      [(("a" : String), Json.int 1), (("b" : String), Json.int 2)] rfl rfl).1,
    (c6_call_invokes wf6
      [(("a" : String), Json.int 1), (("b" : String), Json.int 2)]
      [(("a" : String), TypeDescriptor.prim .integerKind, (none : Option Json)),
       (("b" : String), TypeDescriptor.prim .numberKind, (none : Option Json))]
      [(("a" : String), Json.int 1), (("b" : String), Json.int 2)] rfl rfl).2⟩

/-- Counterexample to C7 as stated: when the inner fragment is a bare `$ref`
reference, the emitted fragment is an `allOf` wrapper around the reference
with the description as a sibling — it does not equal the inner fragment with
a `description` key attached (behaviour pinned by the repository's test
`test_as_json_schema_include_returns_pydantic`). -/
theorem c7_counterexample :
    (typeMapper (.annotated
        (.structured ("M") [(("b" : String), .prim .integerKind, none)])
        [doc ("desc a")])).1 ≠
      specAttachDescription
        (typeMapper (.structured ("M")
          [(("b" : String), .prim .integerKind, none)])).1
        ("desc a") := by
  intro h
  have h2 : Json.obj [("allOf", .arr [.obj [("$ref", .str ("#/$defs/M"))]]),
      ("description", .str ("desc a"))] =
    Json.obj [("$ref", .str ("#/$defs/M")), ("description", .str ("desc a"))] := h
  simp at h2

/-- Claim C7 as amended: for an `Annotated` descriptor whose metadata has
string-like entries, the emitted fragment carries the entries joined with
`"; "` as its description: when the inner fragment is not a bare `$ref` it
equals the inner fragment with the `description` attached, and when it is a
bare `$ref` it is the `allOf`-wrapped reference with the description as a
sibling; with no string-like entries the inner fragment is unchanged. -/
theorem c7_annotated_description (inner : TypeDescriptor) (md : List JMeta) :
    (md.filterMap stringLike = [] →
      typeMapper (.annotated inner md) = typeMapper inner) ∧
    (md.filterMap stringLike ≠ [] →
      (typeMapper (.annotated inner md)).1 =
        (if pureRef (typeMapper inner).1 then
          Json.obj [("allOf", .arr [(typeMapper inner).1]),
            ("description", .str (String.intercalate ("; ")
              (md.filterMap stringLike)))]
         else specAttachDescription (typeMapper inner).1
           (String.intercalate ("; ") (md.filterMap stringLike))) ∧
      (typeMapper (.annotated inner md)).2 = (typeMapper inner).2) := by
  constructor
  · intro h
    have h' : (md.filterMap stringLike).isEmpty = true := by
      simp [List.isEmpty_iff, h]
    simp [typeMapper, h']
  · intro h
    have h' : ¬(md.filterMap stringLike).isEmpty = true := by
      simp [List.isEmpty_iff, h]
    by_cases hp : pureRef (typeMapper inner).1 = true
    · constructor
      · simp [typeMapper, h', hp]
      · simp [typeMapper, h', hp]
    · constructor
      · simp only [typeMapper, h', hp]
        simp [specAttachDescription, hp]
      · simp [typeMapper, h', hp]

/-- Witness for the amended C7 at concrete inputs: two string-like entries
joined with "; " and attached onto a primitive fragment, and a metadata list
with no string-like entry leaving the fragment unchanged. -/
theorem c7_annotated_description_witness :
    typeMapper (.annotated (.prim .integerKind) [JMeta.other]) =
      typeMapper (.prim .integerKind) ∧
    (typeMapper (.annotated (.prim .integerKind)
        [doc ("x"), JMeta.plain ("y")])).1 =
      (if pureRef (typeMapper (.prim .integerKind)).1 then
        Json.obj [("allOf", .arr [(typeMapper (.prim .integerKind)).1]),
          ("description", .str (String.intercalate ("; ")
            ([doc ("x"), JMeta.plain ("y")].filterMap stringLike)))]
       else specAttachDescription (typeMapper (.prim .integerKind)).1
         (String.intercalate ("; ")
           ([doc ("x"), JMeta.plain ("y")].filterMap stringLike))) :=
  ⟨(c7_annotated_description (.prim .integerKind) [JMeta.other]).1 rfl,
   ((c7_annotated_description (.prim .integerKind)
      [doc ("x"), JMeta.plain ("y")]).2 (by simp [doc, stringLike])).1⟩

/-- Claim C8: requesting the returns schema of a callable without a return
annotation fails with the missing-return-annotation error naming the
callable, and no returns fragment is produced. -/
theorem c8_missing_return_ann (f : Func) (h : f.returnType? = none) :
    get_returns_model f = .error (.missingReturnAnn f.name) ∧
    get_returns_schema f = .error (.missingReturnAnn f.name) := by
  constructor
  · simp [get_returns_model, h]
  · simp [get_returns_schema, get_returns_model, h, Except.map]

/-- Sample callable for the C8 witness: no return annotation. -/
def wf8 : Func := Func.mk ("h") none [] none (fun _ => Json.null)

/-- Witness for C8 at a concrete callable. -/
theorem c8_missing_return_ann_witness :
    get_returns_model wf8 = .error (.missingReturnAnn ("h")) ∧
    get_returns_schema wf8 = .error (.missingReturnAnn ("h")) :=
  c8_missing_return_ann wf8 rfl

/-- Claim C9: when the return type's own fragment carries `type: "object"`
(e.g. a mapping return type), the unwrapping deletes that genuine `type` key
as well: the final returns fragment has no `type` key. -/
theorem c9_object_type_deleted (f : Func) (rt : TypeDescriptor)
    (hr : f.returnType? = some rt)
    (hobj : (typeMapper rt).1.getKey? ("type") = some (.str ("object")))
    (r : Json) (h : get_returns_schema f = .ok r) :
    r.hasKey ("type") = false := by
  obtain ⟨fes, hfe, hfnd, hfdefs⟩ := typeMapper_frag_shape rt
  have hspec := returns_pipeline_spec rt fes hfe hfnd hfdefs
  have hr2 : r = unwrapReturns (buildObjectSchema [(RETURNS_KEY, rt, none)]) := by
    simp only [get_returns_schema, get_returns_model, hr, Except.map] at h
    cases h
    rfl
  subst hr2
  apply hspec.2.2.2.2
  rw [hfe] at hobj
  simpa [Json.getKey?] using hobj

/-- Sample callable for the C9 witness: a mapping (dict) return type, whose
fragment is exactly `type: "object"`. -/
def wf9 : Func := Func.mk ("f") none [] (some .mappingTy) (fun _ => Json.null)

/-- Witness for C9 at a concrete callable. -/
theorem c9_object_type_deleted_witness :
    ∃ r, get_returns_schema wf9 = Except.ok r ∧ r.hasKey ("type") = false :=
  ⟨_, rfl, c9_object_type_deleted wf9 .mappingTy rfl rfl _ rfl⟩

/-- Claim C10: when the JSON object fails validation, `call` and
`call_with_json` raise the validation error carrying the violated fields, and
the target callable is never invoked — the result is the same for every
implementation of the callable's body. -/
theorem c10_no_invoke_on_error (func : Func) (j : List (String × Json))
    (m : List FieldDef) (es : List (String × String))
    (h1 : get_parameter_model func = .ok m)
    (h2 : validateParams m j = .error es) :
    call func j = .error (.validation es) ∧
    call_with_json func j = .error (.validation es) ∧
    (∀ g : Func, g.name = func.name → g.params = func.params →
      call g j = .error (.validation es) ∧
      call_with_json g j = .error (.validation es)) := by
  refine ⟨by simp only [call, h1, bind_ok_schema, h2],
    by simp only [call_with_json, h1, bind_ok_schema, h2], ?_⟩
  intro g hn hp
  have h1g : get_parameter_model g = .ok m := by
    rw [get_parameter_model, hn, hp]
    exact h1
  exact ⟨by simp only [call, h1g, bind_ok_schema, h2],
    by simp only [call_with_json, h1g, bind_ok_schema, h2]⟩

/-- Sample callable for the C10 witness: `f(a: integer)` with an observable
implementation, fed a failing payload. -/
def wf10 : Func := Func.mk ("f") none
  [ParameterSpec.mk ("a") (some (.prim .integerKind)) none]
  none (fun _ => Json.str ("side effect"))

/-- Witness for C10 at a concrete callable and rejected input. -/
theorem c10_no_invoke_on_error_witness :
    validateParams
        [(("a" : String), TypeDescriptor.prim .integerKind, (none : Option Json))]
        [(("a" : String), Json.str ("oops"))]
      = Except.error [(("a" : String), "input should match the declared type")] ∧
    call wf10 [(("a" : String), Json.str ("oops"))]
      = .error (.validation
          [(("a" : String), "input should match the declared type")]) ∧
    call_with_json wf10 [(("a" : String), Json.str ("oops"))]
      = .error (.validation
          [(("a" : String), "input should match the declared type")]) :=
  ⟨rfl,
    (c10_no_invoke_on_error wf10 [(("a" : String), Json.str ("oops"))]
      [(("a" : String), TypeDescriptor.prim .integerKind, (none : Option Json))]
      [(("a" : String), "input should match the declared type")] rfl rfl).1,
    (c10_no_invoke_on_error wf10 [(("a" : String), Json.str ("oops"))]
      [(("a" : String), TypeDescriptor.prim .integerKind, (none : Option Json))]
      [(("a" : String), "input should match the declared type")] rfl rfl).2.1⟩

end AnnotatedDocs
